import Mathlib

/-!
Verification of the subscription-renewal contract
(`contracts/subscription_renewal/src/lib.rs`).

The contract storage is modelled as an explicit state record; addresses are
`Nat`, `u32`/`u64` ledger values and identifiers are `Nat`, `i128` amounts are
`Int`.  A Rust `panic!` is modelled as `Except.error` carrying the error kind
together with the storage as persisted at the moment of the abort; a normal
return carries the result value and the updated storage.  The ledger sequence
(`env.ledger().sequence()`), read once per call, is passed as the `now`
argument.  Event publication is fire-and-forget and external; the numeric
reason codes of `ApprovalRejected` are kept as the error payload of
`consume_approval`.
-/

/-- `SubscriptionState` from the source: the lifecycle state of a
subscription. -/
inductive SubscriptionState where
  | Active
  | Retrying
  | Failed
  | Cancelled
  deriving DecidableEq, Repr

/-- `SubscriptionData` from the source.  `integrity_hash` is a reserved field,
always written as zero by `init_sub`; it is kept as a `Nat`. -/
structure SubscriptionData where
  owner : Nat
  merchant : Nat
  amount : Int
  frequency : Nat
  spending_cap : Int
  integrity_hash : Nat
  state : SubscriptionState
  failure_count : Nat
  last_attempt_ledger : Nat
  deriving DecidableEq, Repr

/-- `RenewalApproval` from the source. -/
structure RenewalApproval where
  sub_id : Nat
  max_spend : Int
  expires_at : Nat
  used : Bool
  deriving DecidableEq, Repr

/-- The contract's persistent and instance storage, one field per key family:
`ContractKey::Admin`, `ContractKey::Paused`, the `sub_id` subscription keys,
`ApprovalKey { sub_id, approval_id }`, `CycleKey { sub_id }`,
`UserCapKey::UserCap` and `UserCapKey::UserSpent`. -/
structure ContractState where
  admin : Option Nat
  pausedFlag : Option Bool
  subs : Nat → Option SubscriptionData
  approvals : Nat × Nat → Option RenewalApproval
  cycles : Nat → Option Nat
  userCap : Nat → Option Int
  userSpent : Nat → Option Int

/-- Point update of a storage map (`env.storage().persistent().set`). -/
def setMap {α β : Type} [DecidableEq α] (f : α → Option β) (k : α) (v : β) :
    α → Option β :=
  fun x => if x = k then some v else f x

/-- `is_paused`: `get(Paused).unwrap_or(false)`. -/
def is_paused (s : ContractState) : Bool :=
  s.pausedFlag.getD false

/-- `init`: set the admin once; panics `Already initialized` otherwise. -/
def init (s : ContractState) (admin : Nat) : Except Unit ContractState :=
  if s.admin.isSome then .error ()
  else .ok { s with admin := some admin, pausedFlag := some false }

/-- `set_paused` (admin only; `require_admin` panics when uninitialized, and
the authorization check itself is external). -/
def set_paused (s : ContractState) (paused : Bool) : Except Unit ContractState :=
  match s.admin with
  | none => .error ()
  | some _ => .ok { s with pausedFlag := some paused }

/-- `init_sub`: unconditionally writes a fresh subscription record with state
`Active`, zero failures, zero last-attempt ledger and zero integrity hash. -/
def init_sub (s : ContractState) (owner merchant : Nat) (amount : Int)
    (frequency : Nat) (spending_cap : Int) (sub_id : Nat) : ContractState :=
  let data : SubscriptionData :=
    { owner := owner, merchant := merchant, amount := amount,
      frequency := frequency, spending_cap := spending_cap,
      integrity_hash := 0, state := .Active,
      failure_count := 0, last_attempt_ledger := 0 }
  { s with subs := setMap s.subs sub_id data }

/-- `set_user_cap` (admin only): overwrites the owner's global cap. -/
def set_user_cap (s : ContractState) (user : Nat) (cap : Int) :
    Except Unit ContractState :=
  match s.admin with
  | none => .error ()
  | some _ => .ok { s with userCap := setMap s.userCap user cap }

/-- `get_user_cap`: read defaulting to 0. -/
def get_user_cap (s : ContractState) (user : Nat) : Int :=
  (s.userCap user).getD 0

/-- `get_user_spent`: read defaulting to 0. -/
def get_user_spent (s : ContractState) (user : Nat) : Int :=
  (s.userSpent user).getD 0

/-- Error kinds of `cancel_sub`. -/
inductive CancelError where
  | notFound
  | alreadyCancelled
  deriving DecidableEq, Repr

/-- `cancel_sub`: owner-authorized cancellation; panics when the subscription
is absent or already cancelled, otherwise sets state to `Cancelled`. -/
def cancel_sub (s : ContractState) (sub_id : Nat) :
    Except CancelError ContractState :=
  match s.subs sub_id with
  | none => .error .notFound
  | some data =>
    if data.state = SubscriptionState.Cancelled then .error .alreadyCancelled
    else .ok { s with subs := setMap s.subs sub_id ({ data with state := .Cancelled }) }

/-- `approve_renewal`: requires the subscription to exist (owner auth is
external), then unconditionally writes a fresh, unused approval under the
composite key `(sub_id, approval_id)`. -/
def approve_renewal (s : ContractState) (sub_id approval_id : Nat)
    (max_spend : Int) (expires_at : Nat) : Except Unit ContractState :=
  match s.subs sub_id with
  | none => .error ()
  | some _ =>
    let approval : RenewalApproval :=
      { sub_id := sub_id, max_spend := max_spend,
        expires_at := expires_at, used := false }
    .ok { s with approvals := setMap s.approvals (sub_id, approval_id) approval }

/-- `consume_approval`: validate and consume an approval.  On rejection the
numeric reason code of the `ApprovalRejected` event is returned
(4 = not found, 2 = already used, 1 = expired, 3 = amount exceeded, in that
check order); on success the approval is persisted with `used = true`. -/
def consume_approval (s : ContractState) (now : Nat) (sub_id approval_id : Nat)
    (amount : Int) : Except Nat ContractState :=
  match s.approvals (sub_id, approval_id) with
  | none => .error 4
  | some approval =>
    if approval.used then .error 2
    else if now > approval.expires_at then .error 1
    else if amount > approval.max_spend then .error 3
    else
      let approval1 := { approval with used := true }
      .ok { s with approvals := setMap s.approvals (sub_id, approval_id) approval1 }

/-- The panics of `renew`, in guard order; `invalidApproval` carries the
reason code from `consume_approval`. -/
inductive RenewError where
  | protocolPaused
  | subNotFound
  | terminalState
  | duplicateCycle
  | cooldownActive
  | invalidApproval (reason : Nat)
  | subscriptionCapExceeded
  | globalCapExceeded
  deriving DecidableEq, Repr

/-- `renew`: the ordered guard pipeline and the success/failure branch of the
source, with `now` the ledger sequence read in the call.  An abort carries the
storage as persisted at that point: unchanged for guards 1-6, and with the
approval consumed for the two cap guards 7-8. -/
def renew (s : ContractState) (now : Nat) (sub_id approval_id : Nat)
    (amount : Int) (max_retries cooldown_ledgers cycle_id : Nat)
    (succeed : Bool) : Except (RenewError × ContractState) (Bool × ContractState) :=
  if is_paused s then .error (.protocolPaused, s)
  else
    match s.subs sub_id with
    | none => .error (.subNotFound, s)
    | some data =>
      if data.state = SubscriptionState.Failed then .error (.terminalState, s)
      else if s.cycles sub_id = some cycle_id then .error (.duplicateCycle, s)
      else if data.failure_count > 0 ∧ now < data.last_attempt_ledger + cooldown_ledgers then
        .error (.cooldownActive, s)
      else
        match consume_approval s now sub_id approval_id amount with
        | .error reason => .error (.invalidApproval reason, s)
        | .ok s1 =>
          if data.spending_cap > 0 ∧ amount > data.spending_cap then
            .error (.subscriptionCapExceeded, s1)
          else
            let global_cap := (s1.userCap data.owner).getD 0
            let current_spent := (s1.userSpent data.owner).getD 0
            if global_cap > 0 ∧ current_spent + amount > global_cap then
              .error (.globalCapExceeded, s1)
            else if succeed then
              let data1 := { data with state := SubscriptionState.Active,
                                       failure_count := 0,
                                       last_attempt_ledger := now }
              let s2 := { s1 with subs := setMap s1.subs sub_id data1,
                                  cycles := setMap s1.cycles sub_id cycle_id }
              let s3 := if global_cap > 0 then
                          { s2 with userSpent :=
                              setMap s2.userSpent data.owner (current_spent + amount) }
                        else s2
              .ok (true, s3)
            else
              let fc := data.failure_count + 1
              let st := if fc > max_retries then SubscriptionState.Failed
                        else SubscriptionState.Retrying
              let data1 := { data with failure_count := fc,
                                       last_attempt_ledger := now,
                                       state := st }
              .ok (false, { s1 with subs := setMap s1.subs sub_id data1 })

/-! ## Helper lemmas -/

lemma setMap_same {α β : Type} [DecidableEq α] (f : α → Option β) (k : α) (v : β) :
    setMap f k v k = some v := by
  simp [setMap]

lemma setMap_other {α β : Type} [DecidableEq α] (f : α → Option β) (k x : α) (v : β)
    (hx : x ≠ k) : setMap f k v x = f x := by
  simp [setMap, hx]

/-- A successful `consume_approval` changes only the approval at the call's
composite key, flipping its `used` flag from false to true. -/
lemma consume_approval_ok_spec
    (s : ContractState) (now sub_id approval_id : Nat) (amount : Int)
    (s1 : ContractState)
    (h : consume_approval s now sub_id approval_id amount = .ok s1) :
    s1.admin = s.admin ∧ s1.pausedFlag = s.pausedFlag ∧ s1.subs = s.subs ∧
    s1.cycles = s.cycles ∧ s1.userCap = s.userCap ∧ s1.userSpent = s.userSpent ∧
    ∃ a, s.approvals (sub_id, approval_id) = some a ∧ a.used = false ∧
      s1.approvals = setMap s.approvals (sub_id, approval_id) ({ a with used := true }) := by
  unfold consume_approval at h
  split at h
  · exact Except.noConfusion h
  rename_i a heq
  split at h
  · exact Except.noConfusion h
  rename_i hused
  split at h
  · exact Except.noConfusion h
  rename_i hexp
  split at h
  · exact Except.noConfusion h
  rename_i hamt
  rw [Except.ok.injEq] at h
  subst h
  refine ⟨rfl, rfl, rfl, rfl, rfl, rfl, a, heq, ?_, rfl⟩
  simpa using hused

/-! ## Claims -/

/-- A `renew` call that passes all guards with `succeed = true` stores the
subscription as active with a fresh attempt stamp, records the cycle, and
accrues spent exactly when a positive global cap is configured. -/
lemma renew_ok_true_spec
    (s : ContractState) (now sub_id approval_id : Nat) (amount : Int)
    (max_retries cooldown_ledgers cycle_id : Nat)
    (data : SubscriptionData) (r : Bool) (s' : ContractState)
    (hd : s.subs sub_id = some data)
    (h : renew s now sub_id approval_id amount max_retries cooldown_ledgers cycle_id true =
          .ok (r, s')) :
    r = true ∧
    s'.subs sub_id = some ({ data with state := SubscriptionState.Active,
                                       failure_count := 0,
                                       last_attempt_ledger := now }) ∧
    s'.cycles sub_id = some cycle_id ∧
    ((s.userCap data.owner).getD 0 > 0 →
       (s'.userSpent data.owner).getD 0 = (s.userSpent data.owner).getD 0 + amount) ∧
    (¬ (s.userCap data.owner).getD 0 > 0 → s'.userSpent = s.userSpent) := by
  unfold renew at h
  rw [hd] at h
  split at h
  · exact Except.noConfusion h
  simp only at h
  split at h
  · exact Except.noConfusion h
  split at h
  · exact Except.noConfusion h
  split at h
  · exact Except.noConfusion h
  rcases hca : consume_approval s now sub_id approval_id amount with reason | s1
  · rw [hca] at h; exact Except.noConfusion h
  rw [hca] at h
  simp only at h
  split at h
  · exact Except.noConfusion h
  obtain ⟨-, -, hsubs, hcyc, hcap, hspent, a, ha, haf, happ⟩ :=
    consume_approval_ok_spec s now sub_id approval_id amount s1 hca
  split at h
  · exact Except.noConfusion h
  rename_i hgcap
  simp only [if_true] at h
  split at h
  · -- global cap configured: spent is updated
    rename_i hgpos
    rw [Except.ok.injEq, Prod.mk.injEq] at h
    obtain ⟨hr, hs⟩ := h
    subst hs
    refine ⟨hr.symm, ?_, ?_, ?_, ?_⟩
    · simp [setMap_same, hsubs]
    · simp [setMap_same]
    · intro _
      simp [setMap_same, hspent]
    · intro hneg
      rw [hcap] at hgpos
      exact absurd hgpos hneg
  · -- no global cap: spent untouched
    rename_i hgneg
    rw [Except.ok.injEq, Prod.mk.injEq] at h
    obtain ⟨hr, hs⟩ := h
    subst hs
    refine ⟨hr.symm, ?_, ?_, ?_, ?_⟩
    · simp [setMap_same, hsubs]
    · simp [setMap_same]
    · intro hpos
      rw [hcap] at hgneg
      exact absurd hpos hgneg
    · intro _
      exact hspent

/-! ## Concrete sample data for witnesses -/

/-- A sample subscription (scenario B of the spec): no per-subscription cap. -/
def sampleSub : SubscriptionData :=
  { owner := 7, merchant := 8, amount := 10, frequency := 30,
    spending_cap := 0, integrity_hash := 0, state := .Active,
    failure_count := 0, last_attempt_ledger := 0 }

/-- A sample contract state: subscription 1 exists, approval (1,1) with
max spend 100 expiring at ledger 50, no caps configured. -/
def sampleState : ContractState :=
  { admin := some 99, pausedFlag := some false,
    subs := setMap (fun _ => none) 1 sampleSub,
    approvals := setMap (fun _ => none) (1, 1)
      ({ sub_id := 1, max_spend := 100, expires_at := 50, used := false }),
    cycles := fun _ => none,
    userCap := fun _ => none,
    userSpent := fun _ => none }

/-- The state after the successful scenario-B renewal on `sampleState`. -/
def C1resState : ContractState :=
  ((renew sampleState 10 1 1 50 3 5 7 true).toOption.getD (false, sampleState)).2

/-- C1: a `renew` call that passes all eight guards with `succeed = true`
stores the subscription with state `Active`, `failure_count` 0 and
`last_attempt_ledger` equal to the ledger value read in the call, records the
call's `cycle_id` for the subscription, adds `amount` to the owner's
cumulative spent exactly when the owner's configured global cap is positive
(leaving it unchanged otherwise), and returns `true`. -/
theorem renew_success_postconditions
    (s : ContractState) (now sub_id approval_id : Nat) (amount : Int)
    (max_retries cooldown_ledgers cycle_id : Nat)
    (data : SubscriptionData) (r : Bool) (s' : ContractState)
    (hd : s.subs sub_id = some data)
    (h : renew s now sub_id approval_id amount max_retries cooldown_ledgers cycle_id true =
          .ok (r, s')) :
    r = true ∧
    s'.subs sub_id = some ({ data with state := SubscriptionState.Active,
                                       failure_count := 0,
                                       last_attempt_ledger := now }) ∧
    s'.cycles sub_id = some cycle_id ∧
    ((s.userCap data.owner).getD 0 > 0 →
       (s'.userSpent data.owner).getD 0 = (s.userSpent data.owner).getD 0 + amount) ∧
    (¬ (s.userCap data.owner).getD 0 > 0 → s'.userSpent = s.userSpent) :=
  renew_ok_true_spec s now sub_id approval_id amount max_retries cooldown_ledgers
    cycle_id data r s' hd h

/-- Witness for C1 at the scenario-B input: subscription 1, approval 1,
amount 50, `max_retries` 3, cooldown 5, cycle 7, at ledger 10. -/
theorem renew_success_postconditions_witness :
    sampleState.subs 1 = some sampleSub ∧
    (true = true ∧
     C1resState.subs 1 = some ({ sampleSub with state := SubscriptionState.Active,
                                                 failure_count := 0,
                                                 last_attempt_ledger := 10 }) ∧
     C1resState.cycles 1 = some 7 ∧
     ((sampleState.userCap sampleSub.owner).getD 0 > 0 →
        (C1resState.userSpent sampleSub.owner).getD 0 =
          (sampleState.userSpent sampleSub.owner).getD 0 + 50) ∧
     (¬ (sampleState.userCap sampleSub.owner).getD 0 > 0 →
        C1resState.userSpent = sampleState.userSpent)) :=
  ⟨rfl, renew_success_postconditions sampleState 10 1 1 50 3 5 7 sampleSub true
      C1resState rfl rfl⟩

/-- Case analysis of an aborting `renew` call: which guard fired and what
storage the abort left behind (`s` itself for guards 1-6, the
approval-consumed state for the two cap guards). -/
lemma renew_error_cases
    (s : ContractState) (now sub_id approval_id : Nat) (amount : Int)
    (max_retries cooldown_ledgers cycle_id : Nat) (succeed : Bool)
    (e : RenewError) (s' : ContractState)
    (h : renew s now sub_id approval_id amount max_retries cooldown_ledgers cycle_id succeed =
          .error (e, s')) :
    (e = .protocolPaused ∧ s' = s) ∨
    (e = .subNotFound ∧ s' = s) ∨
    (∃ data, s.subs sub_id = some data ∧
      ((e = .terminalState ∧ data.state = SubscriptionState.Failed ∧ s' = s) ∨
       (e = .duplicateCycle ∧ s.cycles sub_id = some cycle_id ∧ s' = s) ∨
       (e = .cooldownActive ∧ data.failure_count > 0 ∧
          now < data.last_attempt_ledger + cooldown_ledgers ∧ s' = s) ∨
       (∃ reason, e = .invalidApproval reason ∧ s' = s) ∨
       ((e = .subscriptionCapExceeded ∨ e = .globalCapExceeded) ∧
        ∃ s1, consume_approval s now sub_id approval_id amount = .ok s1 ∧ s' = s1))) := by
  unfold renew at h
  split at h
  · rw [Except.error.injEq, Prod.mk.injEq] at h
    exact Or.inl ⟨h.1.symm, h.2.symm⟩
  split at h
  · rw [Except.error.injEq, Prod.mk.injEq] at h
    exact Or.inr (Or.inl ⟨h.1.symm, h.2.symm⟩)
  rename_i data hdata
  refine Or.inr (Or.inr ⟨data, hdata, ?_⟩)
  split at h
  · rename_i hfail
    rw [Except.error.injEq, Prod.mk.injEq] at h
    exact Or.inl ⟨h.1.symm, hfail, h.2.symm⟩
  split at h
  · rename_i hcy
    rw [Except.error.injEq, Prod.mk.injEq] at h
    exact Or.inr (Or.inl ⟨h.1.symm, hcy, h.2.symm⟩)
  split at h
  · rename_i hcd
    rw [Except.error.injEq, Prod.mk.injEq] at h
    exact Or.inr (Or.inr (Or.inl ⟨h.1.symm, hcd.1, hcd.2, h.2.symm⟩))
  rcases hca : consume_approval s now sub_id approval_id amount with reason | s1
  · rw [hca] at h
    simp only at h
    rw [Except.error.injEq, Prod.mk.injEq] at h
    exact Or.inr (Or.inr (Or.inr (Or.inl ⟨reason, h.1.symm, h.2.symm⟩)))
  rw [hca] at h
  simp only at h
  split at h
  · rw [Except.error.injEq, Prod.mk.injEq] at h
    exact Or.inr (Or.inr (Or.inr (Or.inr ⟨Or.inl h.1.symm, s1, rfl, h.2.symm⟩)))
  split at h
  · rw [Except.error.injEq, Prod.mk.injEq] at h
    exact Or.inr (Or.inr (Or.inr (Or.inr ⟨Or.inr h.1.symm, s1, rfl, h.2.symm⟩)))
  split at h
  · exact Except.noConfusion h
  · exact Except.noConfusion h

/-- A `renew` call with `succeed = false` that passes all guards increments
the failure count, stamps the attempt ledger, picks `Failed` or `Retrying` by
comparison with `max_retries`, and leaves the cycle record and the owner's
spent untouched. -/
lemma renew_ok_false_spec
    (s : ContractState) (now sub_id approval_id : Nat) (amount : Int)
    (max_retries cooldown_ledgers cycle_id : Nat)
    (data : SubscriptionData) (r : Bool) (s' : ContractState)
    (hd : s.subs sub_id = some data)
    (h : renew s now sub_id approval_id amount max_retries cooldown_ledgers cycle_id false =
          .ok (r, s')) :
    r = false ∧
    s'.subs sub_id = some ({ data with
        failure_count := data.failure_count + 1,
        last_attempt_ledger := now,
        state := if data.failure_count + 1 > max_retries then SubscriptionState.Failed
                 else SubscriptionState.Retrying }) ∧
    s'.cycles = s.cycles ∧ s'.userSpent = s.userSpent := by
  unfold renew at h
  rw [hd] at h
  split at h
  · exact Except.noConfusion h
  simp only at h
  split at h
  · exact Except.noConfusion h
  split at h
  · exact Except.noConfusion h
  split at h
  · exact Except.noConfusion h
  rcases hca : consume_approval s now sub_id approval_id amount with reason | s1
  · rw [hca] at h; exact Except.noConfusion h
  rw [hca] at h
  simp only at h
  split at h
  · exact Except.noConfusion h
  split at h
  · exact Except.noConfusion h
  obtain ⟨-, -, hsubs, hcyc, -, hspent, -, -, -, -⟩ :=
    consume_approval_ok_spec s now sub_id approval_id amount s1 hca
  simp only [Bool.false_eq_true, if_false] at h
  rw [Except.ok.injEq, Prod.mk.injEq] at h
  obtain ⟨hr, hs⟩ := h
  subst hs
  exact ⟨hr.symm, by simp [setMap_same, hsubs], hcyc, hspent⟩

/-- C2: a `renew` call that passes all eight guards with `succeed = false`
increments `failure_count` by exactly 1, sets `last_attempt_ledger` to the
ledger value read in the call, leaves the cycle record unchanged, sets the
state to `Failed` when the new failure count strictly exceeds `max_retries`
and to `Retrying` otherwise, and returns `false`. -/
theorem renew_failure_postconditions
    (s : ContractState) (now sub_id approval_id : Nat) (amount : Int)
    (max_retries cooldown_ledgers cycle_id : Nat)
    (data : SubscriptionData) (r : Bool) (s' : ContractState)
    (hd : s.subs sub_id = some data)
    (h : renew s now sub_id approval_id amount max_retries cooldown_ledgers cycle_id false =
          .ok (r, s')) :
    r = false ∧
    s'.subs sub_id = some ({ data with
        failure_count := data.failure_count + 1,
        last_attempt_ledger := now,
        state := if data.failure_count + 1 > max_retries then SubscriptionState.Failed
                 else SubscriptionState.Retrying }) ∧
    s'.cycles = s.cycles :=
  let spec := renew_ok_false_spec s now sub_id approval_id amount max_retries
    cooldown_ledgers cycle_id data r s' hd h
  ⟨spec.1, spec.2.1, spec.2.2.1⟩

/-- The state after a guard-passing failed renewal (`succeed = false`,
`max_retries = 0`) on `sampleState`. -/
def C2resState : ContractState :=
  ((renew sampleState 10 1 1 50 0 5 7 false).toOption.getD (true, sampleState)).2

/-- Witness for C2: on `sampleState` with `max_retries = 0` the failed
renewal returns false, stores failure count 1 and state `Failed`, and leaves
the cycle record unchanged. -/
theorem renew_failure_postconditions_witness :
    sampleState.subs 1 = some sampleSub ∧
    (false = false ∧
     C2resState.subs 1 = some ({ sampleSub with
         failure_count := sampleSub.failure_count + 1,
         last_attempt_ledger := 10,
         state := if sampleSub.failure_count + 1 > 0 then SubscriptionState.Failed
                  else SubscriptionState.Retrying }) ∧
     C2resState.cycles = sampleState.cycles) :=
  ⟨rfl, renew_failure_postconditions sampleState 10 1 1 50 0 5 7 sampleSub false
      C2resState rfl rfl⟩

/-- C3: an aborting `renew` call leaves the subscription record, the cycle
record and the owner's cumulative spent unchanged; the approvals are also
unchanged except that an abort on one of the two cap guards (which run after
approval consumption) leaves the consumed approval persisted with
`used = true`, touching no other approval. -/
theorem renew_abort_frame
    (s : ContractState) (now sub_id approval_id : Nat) (amount : Int)
    (max_retries cooldown_ledgers cycle_id : Nat) (succeed : Bool)
    (e : RenewError) (s' : ContractState)
    (h : renew s now sub_id approval_id amount max_retries cooldown_ledgers cycle_id succeed =
          .error (e, s')) :
    s'.admin = s.admin ∧ s'.pausedFlag = s.pausedFlag ∧ s'.subs = s.subs ∧
    s'.cycles = s.cycles ∧ s'.userCap = s.userCap ∧ s'.userSpent = s.userSpent ∧
    ((e ≠ RenewError.subscriptionCapExceeded ∧ e ≠ RenewError.globalCapExceeded) →
       s'.approvals = s.approvals) ∧
    ((e = RenewError.subscriptionCapExceeded ∨ e = RenewError.globalCapExceeded) →
       ∃ a, s.approvals (sub_id, approval_id) = some a ∧ a.used = false ∧
         s'.approvals = setMap s.approvals (sub_id, approval_id) ({ a with used := true })) := by
  have hc := renew_error_cases s now sub_id approval_id amount max_retries
    cooldown_ledgers cycle_id succeed e s' h
  rcases hc with ⟨he, hs⟩ | ⟨he, hs⟩ | ⟨data, -, hcase⟩
  · subst hs; subst he
    exact ⟨rfl, rfl, rfl, rfl, rfl, rfl, fun _ => rfl, fun hx => by rcases hx with hx | hx <;> exact RenewError.noConfusion hx⟩
  · subst hs; subst he
    exact ⟨rfl, rfl, rfl, rfl, rfl, rfl, fun _ => rfl, fun hx => by rcases hx with hx | hx <;> exact RenewError.noConfusion hx⟩
  rcases hcase with ⟨he, -, hs⟩ | ⟨he, -, hs⟩ | ⟨he, -, -, hs⟩ | ⟨reason, he, hs⟩ | ⟨he, sc1, hca, hs⟩
  · subst hs; subst he
    exact ⟨rfl, rfl, rfl, rfl, rfl, rfl, fun _ => rfl, fun hx => by rcases hx with hx | hx <;> exact RenewError.noConfusion hx⟩
  · subst hs; subst he
    exact ⟨rfl, rfl, rfl, rfl, rfl, rfl, fun _ => rfl, fun hx => by rcases hx with hx | hx <;> exact RenewError.noConfusion hx⟩
  · subst hs; subst he
    exact ⟨rfl, rfl, rfl, rfl, rfl, rfl, fun _ => rfl, fun hx => by rcases hx with hx | hx <;> exact RenewError.noConfusion hx⟩
  · subst hs; subst he
    exact ⟨rfl, rfl, rfl, rfl, rfl, rfl, fun _ => rfl, fun hx => by rcases hx with hx | hx <;> exact RenewError.noConfusion hx⟩
  · subst hs
    obtain ⟨ha, hp, hsubs, hcyc, hcap, hspent, a, haeq, haf, happ⟩ :=
      consume_approval_ok_spec s now sub_id approval_id amount s' hca
    refine ⟨ha, hp, hsubs, hcyc, hcap, hspent, ?_, fun _ => ⟨a, haeq, haf, happ⟩⟩
    intro hne
    rcases he with he | he
    · exact absurd he hne.1
    · exact absurd he hne.2

/-- A sample state whose subscription 1 carries a per-subscription cap of
20 (otherwise as `sampleState`). -/
def capState : ContractState :=
  let cappedSub := { sampleSub with spending_cap := 20 }
  { sampleState with subs := setMap sampleState.subs 1 cappedSub }

/-- The storage persisted by the cap-guard abort of
`renew capState 10 1 1 21 3 5 7 true`. -/
def C3errState : ContractState :=
  match renew capState 10 1 1 21 3 5 7 true with
  | .error (_, t) => t
  | .ok (_, t) => t

/-- Witness for C3 at a per-subscription-cap abort (amount 21 against cap
20): the frame holds and the consumed approval is persisted as used. -/
theorem renew_abort_frame_witness :
    C3errState.admin = capState.admin ∧ C3errState.pausedFlag = capState.pausedFlag ∧
    C3errState.subs = capState.subs ∧ C3errState.cycles = capState.cycles ∧
    C3errState.userCap = capState.userCap ∧ C3errState.userSpent = capState.userSpent ∧
    ((RenewError.subscriptionCapExceeded ≠ RenewError.subscriptionCapExceeded ∧
      RenewError.subscriptionCapExceeded ≠ RenewError.globalCapExceeded) →
       C3errState.approvals = capState.approvals) ∧
    ((RenewError.subscriptionCapExceeded = RenewError.subscriptionCapExceeded ∨
      RenewError.subscriptionCapExceeded = RenewError.globalCapExceeded) →
       ∃ a, capState.approvals (1, 1) = some a ∧ a.used = false ∧
         C3errState.approvals = setMap capState.approvals (1, 1) ({ a with used := true })) :=
  renew_abort_frame capState 10 1 1 21 3 5 7 true
    RenewError.subscriptionCapExceeded C3errState rfl

/-- C4: `consume_approval` checks its rejection reasons in the fixed order
not-found (4), already-used (2), expired (1), amount-exceeded (3); expiry is
inclusive, so at `now = expires_at` the call is never rejected as expired;
and an approval consumed once is rejected as already-used on any second
consumption, regardless of the amount and ledger value then supplied. -/
theorem consume_approval_checks
    (s : ContractState) (now sub_id approval_id : Nat) (amount : Int) :
    (s.approvals (sub_id, approval_id) = none →
       consume_approval s now sub_id approval_id amount = .error 4) ∧
    (∀ a, s.approvals (sub_id, approval_id) = some a → a.used = true →
       consume_approval s now sub_id approval_id amount = .error 2) ∧
    (∀ a, s.approvals (sub_id, approval_id) = some a → a.used = false →
       now > a.expires_at →
       consume_approval s now sub_id approval_id amount = .error 1) ∧
    (∀ a, s.approvals (sub_id, approval_id) = some a → a.used = false →
       now ≤ a.expires_at → amount > a.max_spend →
       consume_approval s now sub_id approval_id amount = .error 3) ∧
    (∀ a, s.approvals (sub_id, approval_id) = some a → now = a.expires_at →
       consume_approval s now sub_id approval_id amount ≠ .error 1) ∧
    (∀ s1, consume_approval s now sub_id approval_id amount = .ok s1 →
       ∀ now2 amount2, consume_approval s1 now2 sub_id approval_id amount2 = .error 2) := by
  refine ⟨?_, ?_, ?_, ?_, ?_, ?_⟩
  · intro hnone
    unfold consume_approval
    rw [hnone]
  · intro a ha hu
    unfold consume_approval
    rw [ha]
    simp [hu]
  · intro a ha hu hexp
    unfold consume_approval
    rw [ha]
    simp [hu, hexp]
  · intro a ha hu hexp hamt
    unfold consume_approval
    rw [ha]
    simp only [hu, Bool.false_eq_true, if_false]
    rw [if_neg (by omega), if_pos hamt]
  · intro a ha heq hbad
    simp only [consume_approval, ha] at hbad
    have hnex : ¬(now > a.expires_at) := by omega
    by_cases hu : a.used = true
    · simp [hu] at hbad
    · by_cases hamt : amount > a.max_spend
      · simp [hu, hnex, hamt] at hbad
      · simp [hu, hnex, hamt] at hbad
  · intro s1 h1 now2 amount2
    obtain ⟨-, -, -, -, -, -, a, -, -, happ⟩ :=
      consume_approval_ok_spec s now sub_id approval_id amount s1 h1
    unfold consume_approval
    rw [happ, setMap_same]
    simp

/-- The state after the first consumption of approval (1,1) on
`sampleState`. -/
def C4consumedState : ContractState :=
  ((consume_approval sampleState 10 1 1 50).toOption).getD sampleState

/-- Witness for C4: consuming approval (1,1) of `sampleState` succeeds once,
and a second consumption — with a different amount and ledger value —
rejects with reason code 2 (already used). -/
theorem consume_approval_checks_witness :
    consume_approval sampleState 10 1 1 50 = .ok C4consumedState ∧
    consume_approval C4consumedState 999 1 1 (-5) = .error 2 :=
  ⟨rfl, (consume_approval_checks sampleState 10 1 1 50).2.2.2.2.2
      C4consumedState rfl 999 (-5)⟩

/-- C5: given that guards 1-3 pass, `renew` aborts with the duplicate-cycle
error exactly when a cycle record exists for the subscription and equals the
call's `cycle_id`; and a guard-passing failed renewal never writes the cycle
record, so a `cycle_id` whose renewals only ever failed cannot trigger the
guard. -/
theorem renew_duplicate_cycle_characterization
    (s : ContractState) (now sub_id approval_id : Nat) (amount : Int)
    (max_retries cooldown_ledgers cycle_id : Nat) (succeed : Bool)
    (data : SubscriptionData)
    (hp : is_paused s = false)
    (hd : s.subs sub_id = some data)
    (hf : data.state ≠ SubscriptionState.Failed) :
    ((∃ s', renew s now sub_id approval_id amount max_retries cooldown_ledgers cycle_id succeed =
        .error (.duplicateCycle, s')) ↔ s.cycles sub_id = some cycle_id) ∧
    (∀ r s', renew s now sub_id approval_id amount max_retries cooldown_ledgers cycle_id false =
        .ok (r, s') → s'.cycles = s.cycles) := by
  constructor
  · constructor
    · rintro ⟨s', h⟩
      rcases renew_error_cases s now sub_id approval_id amount max_retries
        cooldown_ledgers cycle_id succeed _ s' h with
        ⟨he, -⟩ | ⟨he, -⟩ | ⟨d0, -, hcase⟩
      · exact RenewError.noConfusion he
      · exact RenewError.noConfusion he
      rcases hcase with ⟨he, -, -⟩ | ⟨-, hcy, -⟩ | ⟨he, -, -, -⟩ | ⟨r0, he, -⟩ | ⟨he, -⟩
      · exact RenewError.noConfusion he
      · exact hcy
      · exact RenewError.noConfusion he
      · exact RenewError.noConfusion he
      · rcases he with he | he <;> exact RenewError.noConfusion he
    · intro hcy
      exact ⟨s, by simp [renew, hp, hd, hf, hcy]⟩
  · intro r s' h
    exact (renew_ok_false_spec s now sub_id approval_id amount max_retries
      cooldown_ledgers cycle_id data r s' hd h).2.2.1

/-- The state reached by the successful scenario-B renewal, used to exercise
the duplicate-cycle guard: its cycle record for subscription 1 is 7. -/
def C5state : ContractState :=
  ((renew sampleState 10 1 1 50 3 5 7 true).toOption.getD (false, sampleState)).2

/-- Witness for C5: after a renewal that succeeded with cycle 7, a second
renewal with cycle 7 aborts with the duplicate-cycle error. -/
theorem renew_duplicate_cycle_characterization_witness :
    C5state.cycles 1 = some 7 ∧
    ∃ s', renew C5state 11 1 2 60 3 5 7 true = .error (.duplicateCycle, s') :=
  ⟨rfl, (renew_duplicate_cycle_characterization C5state 11 1 2 60 3 5 7 true
      ({ sampleSub with state := SubscriptionState.Active, failure_count := 0,
                        last_attempt_ledger := 10 })
      rfl rfl (by simp)).1.mpr rfl⟩

/-- C6: given that guards 1-4 pass, `renew` aborts with the cooldown error
exactly when the subscription's failure count is positive and `now` is
strictly below the last attempt plus the call's cooldown; a subscription
with zero failures never hits the cooldown guard, for any cooldown value. -/
theorem renew_cooldown_characterization
    (s : ContractState) (now sub_id approval_id : Nat) (amount : Int)
    (max_retries cooldown_ledgers cycle_id : Nat) (succeed : Bool)
    (data : SubscriptionData)
    (hp : is_paused s = false)
    (hd : s.subs sub_id = some data)
    (hf : data.state ≠ SubscriptionState.Failed)
    (hcy : s.cycles sub_id ≠ some cycle_id) :
    ((∃ s', renew s now sub_id approval_id amount max_retries cooldown_ledgers cycle_id succeed =
        .error (.cooldownActive, s')) ↔
      (data.failure_count > 0 ∧ now < data.last_attempt_ledger + cooldown_ledgers)) ∧
    (∀ (t : ContractState) (now2 sub2 app2 : Nat) (amt2 : Int) (mr2 cd2 cy2 : Nat)
       (sc2 : Bool) (d2 : SubscriptionData),
       t.subs sub2 = some d2 → d2.failure_count = 0 →
       ∀ s', renew t now2 sub2 app2 amt2 mr2 cd2 cy2 sc2 ≠ .error (.cooldownActive, s')) := by
  constructor
  · constructor
    · rintro ⟨s', h⟩
      rcases renew_error_cases s now sub_id approval_id amount max_retries
        cooldown_ledgers cycle_id succeed _ s' h with
        ⟨he, -⟩ | ⟨he, -⟩ | ⟨d0, hd0, hcase⟩
      · exact RenewError.noConfusion he
      · exact RenewError.noConfusion he
      rcases hcase with ⟨he, -, -⟩ | ⟨he, -, -⟩ | ⟨-, hfc, hlt, -⟩ | ⟨r0, he, -⟩ | ⟨he, -⟩
      · exact RenewError.noConfusion he
      · exact RenewError.noConfusion he
      · rw [hd] at hd0
        cases Option.some.inj hd0
        exact ⟨hfc, hlt⟩
      · exact RenewError.noConfusion he
      · rcases he with he | he <;> exact RenewError.noConfusion he
    · rintro ⟨hfc, hlt⟩
      exact ⟨s, by simp [renew, hp, hd, hf, hcy, hfc, hlt]⟩
  · intro t now2 sub2 app2 amt2 mr2 cd2 cy2 sc2 d2 hd2 h0 s' hbad
    rcases renew_error_cases t now2 sub2 app2 amt2 mr2 cd2 cy2 sc2 _ s' hbad with
      ⟨he, -⟩ | ⟨he, -⟩ | ⟨d0, hd0, hcase⟩
    · exact RenewError.noConfusion he
    · exact RenewError.noConfusion he
    rcases hcase with ⟨he, -, -⟩ | ⟨he, -, -⟩ | ⟨-, hfc, -, -⟩ | ⟨r0, he, -⟩ | ⟨he, -⟩
    · exact RenewError.noConfusion he
    · exact RenewError.noConfusion he
    · rw [hd2] at hd0
      cases Option.some.inj hd0
      omega
    · exact RenewError.noConfusion he
    · rcases he with he | he <;> exact RenewError.noConfusion he

/-- Subscription 1 of the cooldown witness state: one failure, last attempt
at ledger 10. -/
def C6sub : SubscriptionData :=
  { sampleSub with failure_count := 1, last_attempt_ledger := 10,
                   state := SubscriptionState.Retrying }

/-- State for the cooldown witness. -/
def C6state : ContractState :=
  { sampleState with subs := setMap sampleState.subs 1 C6sub }

/-- Witness for C6: with one failure at ledger 10 and cooldown 5, a renewal
at ledger 12 aborts with the cooldown error. -/
theorem renew_cooldown_characterization_witness :
    (C6sub.failure_count > 0 ∧ 12 < C6sub.last_attempt_ledger + 5) ∧
    ∃ s', renew C6state 12 1 1 50 3 5 7 true = .error (.cooldownActive, s') :=
  ⟨by decide, (renew_cooldown_characterization C6state 12 1 1 50 3 5 7 true C6sub
      rfl rfl (by decide) (by simp [C6state, sampleState])).1.mpr (by decide)⟩

/-- C9: given that guards 1-2 pass, the state guard of `renew` aborts with
the terminal-state error exactly when the subscription's state is `Failed`;
in particular a `Cancelled` subscription is never rejected by that guard. -/
theorem renew_terminal_state_characterization
    (s : ContractState) (now sub_id approval_id : Nat) (amount : Int)
    (max_retries cooldown_ledgers cycle_id : Nat) (succeed : Bool)
    (data : SubscriptionData)
    (hp : is_paused s = false)
    (hd : s.subs sub_id = some data) :
    ((∃ s', renew s now sub_id approval_id amount max_retries cooldown_ledgers cycle_id succeed =
        .error (.terminalState, s')) ↔ data.state = SubscriptionState.Failed) ∧
    (data.state = SubscriptionState.Cancelled →
       ∀ s', renew s now sub_id approval_id amount max_retries cooldown_ledgers cycle_id succeed ≠
         .error (.terminalState, s')) := by
  have hiff : (∃ s', renew s now sub_id approval_id amount max_retries cooldown_ledgers
      cycle_id succeed = .error (.terminalState, s')) ↔
      data.state = SubscriptionState.Failed := by
    constructor
    · rintro ⟨s', h⟩
      rcases renew_error_cases s now sub_id approval_id amount max_retries
        cooldown_ledgers cycle_id succeed _ s' h with
        ⟨he, -⟩ | ⟨he, -⟩ | ⟨d0, hd0, hcase⟩
      · exact RenewError.noConfusion he
      · exact RenewError.noConfusion he
      rcases hcase with ⟨-, hfail, -⟩ | ⟨he, -, -⟩ | ⟨he, -, -, -⟩ | ⟨r0, he, -⟩ | ⟨he, -⟩
      · rw [hd] at hd0
        cases Option.some.inj hd0
        exact hfail
      · exact RenewError.noConfusion he
      · exact RenewError.noConfusion he
      · exact RenewError.noConfusion he
      · rcases he with he | he <;> exact RenewError.noConfusion he
    · intro hfail
      exact ⟨s, by simp [renew, hp, hd, hfail]⟩
  refine ⟨hiff, ?_⟩
  intro hcanc s' hbad
  have := hiff.mp ⟨s', hbad⟩
  rw [hcanc] at this
  exact SubscriptionState.noConfusion this

/-- Subscription 1 of the C9 witness state, cancelled. -/
def C9sub : SubscriptionData :=
  { sampleSub with state := SubscriptionState.Cancelled }

/-- State for the C9 witness. -/
def C9state : ContractState :=
  { sampleState with subs := setMap sampleState.subs 1 C9sub }

/-- Witness for C9: renewing a cancelled subscription is not rejected by the
state guard. -/
theorem renew_terminal_state_characterization_witness :
    C9sub.state = SubscriptionState.Cancelled ∧
    renew C9state 10 1 1 50 3 5 7 true ≠ .error (.terminalState, sampleState) :=
  ⟨rfl, (renew_terminal_state_characterization C9state 10 1 1 50 3 5 7 true C9sub
      rfl rfl).2 rfl sampleState⟩

/-- A valid approval (present, unused, unexpired, with sufficient ceiling)
is consumed successfully, marking it used. -/
lemma consume_approval_succeeds
    (s : ContractState) (now sub_id approval_id : Nat) (amount : Int)
    (a : RenewalApproval)
    (ha : s.approvals (sub_id, approval_id) = some a)
    (hu : a.used = false)
    (hex : now ≤ a.expires_at)
    (ham : amount ≤ a.max_spend) :
    consume_approval s now sub_id approval_id amount =
      .ok ({ s with approvals := setMap s.approvals (sub_id, approval_id) ({ a with used := true }) }) := by
  simp only [consume_approval, ha]
  rw [if_neg (by simp [hu]), if_neg (by omega), if_neg (by exact not_lt.mpr ham)]

/-- An aborting `renew` call that fired one of the two cap guards did so with
its guard condition true, stated over the pre-call storage. -/
lemma renew_cap_error_conditions
    (s : ContractState) (now sub_id approval_id : Nat) (amount : Int)
    (max_retries cooldown_ledgers cycle_id : Nat) (succeed : Bool)
    (data : SubscriptionData) (e : RenewError) (s' : ContractState)
    (hd : s.subs sub_id = some data)
    (h : renew s now sub_id approval_id amount max_retries cooldown_ledgers cycle_id succeed =
          .error (e, s')) :
    (e = .subscriptionCapExceeded →
       data.spending_cap > 0 ∧ amount > data.spending_cap) ∧
    (e = .globalCapExceeded →
       ¬(data.spending_cap > 0 ∧ amount > data.spending_cap) ∧
       (s.userCap data.owner).getD 0 > 0 ∧
       (s.userSpent data.owner).getD 0 + amount > (s.userCap data.owner).getD 0) := by
  unfold renew at h
  rw [hd] at h
  split at h
  · rw [Except.error.injEq, Prod.mk.injEq] at h
    rw [← h.1]
    exact ⟨fun he => RenewError.noConfusion he, fun he => RenewError.noConfusion he⟩
  simp only at h
  split at h
  · rw [Except.error.injEq, Prod.mk.injEq] at h
    rw [← h.1]
    exact ⟨fun he => RenewError.noConfusion he, fun he => RenewError.noConfusion he⟩
  split at h
  · rw [Except.error.injEq, Prod.mk.injEq] at h
    rw [← h.1]
    exact ⟨fun he => RenewError.noConfusion he, fun he => RenewError.noConfusion he⟩
  split at h
  · rw [Except.error.injEq, Prod.mk.injEq] at h
    rw [← h.1]
    exact ⟨fun he => RenewError.noConfusion he, fun he => RenewError.noConfusion he⟩
  rcases hca : consume_approval s now sub_id approval_id amount with reason | s1
  · rw [hca] at h
    simp only at h
    rw [Except.error.injEq, Prod.mk.injEq] at h
    rw [← h.1]
    exact ⟨fun he => RenewError.noConfusion he, fun he => RenewError.noConfusion he⟩
  rw [hca] at h
  simp only at h
  obtain ⟨-, -, -, -, hcap, hspent, -⟩ :=
    consume_approval_ok_spec s now sub_id approval_id amount s1 hca
  split at h
  · rename_i hsub
    rw [Except.error.injEq, Prod.mk.injEq] at h
    rw [← h.1]
    exact ⟨fun _ => hsub, fun he => RenewError.noConfusion he⟩
  rename_i hnsub
  split at h
  · rename_i hg
    rw [Except.error.injEq, Prod.mk.injEq] at h
    rw [← h.1]
    rw [hcap, hspent] at hg
    exact ⟨fun he => RenewError.noConfusion he, fun _ => ⟨hnsub, hg.1, hg.2⟩⟩
  split at h
  · exact Except.noConfusion h
  · exact Except.noConfusion h

/-- When every guard condition is false, `renew` returns normally. -/
lemma renew_ok_of_guards
    (s : ContractState) (now sub_id approval_id : Nat) (amount : Int)
    (max_retries cooldown_ledgers cycle_id : Nat) (succeed : Bool)
    (data : SubscriptionData) (s1 : ContractState)
    (hp : is_paused s = false)
    (hd : s.subs sub_id = some data)
    (hf : data.state ≠ SubscriptionState.Failed)
    (hcy : s.cycles sub_id ≠ some cycle_id)
    (hcd : ¬(data.failure_count > 0 ∧ now < data.last_attempt_ledger + cooldown_ledgers))
    (hcons : consume_approval s now sub_id approval_id amount = .ok s1)
    (hnsub : ¬(data.spending_cap > 0 ∧ amount > data.spending_cap))
    (hng : ¬((s.userCap data.owner).getD 0 > 0 ∧
             (s.userSpent data.owner).getD 0 + amount > (s.userCap data.owner).getD 0)) :
    ∃ r s', renew s now sub_id approval_id amount max_retries cooldown_ledgers cycle_id succeed =
      .ok (r, s') := by
  obtain ⟨-, -, -, -, hcap, hspent, -⟩ :=
    consume_approval_ok_spec s now sub_id approval_id amount s1 hcons
  have hng1 : ¬((s1.userCap data.owner).getD 0 > 0 ∧
      (s1.userSpent data.owner).getD 0 + amount > (s1.userCap data.owner).getD 0) := by
    rw [hcap, hspent]
    exact hng
  simp only [renew, hp, hd, hcons]
  rw [if_neg (by simp), if_neg hf, if_neg hcy, if_neg hcd, if_neg hnsub, if_neg hng1]
  cases succeed <;> simp

/-- C7: with guards 1-6 passing, both cap guards are inclusive at the
boundary and disabled at zero: an amount equal to the per-subscription cap
never fires the subscription-cap guard while cap + 1 aborts with it; a
zero per-subscription cap disables that guard; a zero global cap disables the
global guard; and with the subscription-cap condition false, spending up to
exactly the global cap returns normally while one unit beyond aborts with the
global-cap error. -/
theorem renew_cap_boundaries
    (s : ContractState) (now sub_id approval_id : Nat) (amount : Int)
    (max_retries cooldown_ledgers cycle_id : Nat) (succeed : Bool)
    (data : SubscriptionData) (a : RenewalApproval)
    (hp : is_paused s = false)
    (hd : s.subs sub_id = some data)
    (hf : data.state ≠ SubscriptionState.Failed)
    (hcy : s.cycles sub_id ≠ some cycle_id)
    (hcd : ¬(data.failure_count > 0 ∧ now < data.last_attempt_ledger + cooldown_ledgers))
    (ha : s.approvals (sub_id, approval_id) = some a)
    (hu : a.used = false)
    (hex : now ≤ a.expires_at)
    (ham : amount ≤ a.max_spend) :
    (data.spending_cap = 0 →
       ∀ s', renew s now sub_id approval_id amount max_retries cooldown_ledgers cycle_id succeed ≠
         .error (.subscriptionCapExceeded, s')) ∧
    (amount = data.spending_cap →
       ∀ s', renew s now sub_id approval_id amount max_retries cooldown_ledgers cycle_id succeed ≠
         .error (.subscriptionCapExceeded, s')) ∧
    (data.spending_cap > 0 → amount = data.spending_cap + 1 →
       ∃ s', renew s now sub_id approval_id amount max_retries cooldown_ledgers cycle_id succeed =
         .error (.subscriptionCapExceeded, s')) ∧
    ((s.userCap data.owner).getD 0 = 0 →
       ∀ s', renew s now sub_id approval_id amount max_retries cooldown_ledgers cycle_id succeed ≠
         .error (.globalCapExceeded, s')) ∧
    (¬(data.spending_cap > 0 ∧ amount > data.spending_cap) →
     (s.userCap data.owner).getD 0 > 0 →
     (s.userSpent data.owner).getD 0 + amount = (s.userCap data.owner).getD 0 →
       ∃ r s', renew s now sub_id approval_id amount max_retries cooldown_ledgers cycle_id succeed =
         .ok (r, s')) ∧
    (¬(data.spending_cap > 0 ∧ amount > data.spending_cap) →
     (s.userCap data.owner).getD 0 > 0 →
     (s.userSpent data.owner).getD 0 + amount = (s.userCap data.owner).getD 0 + 1 →
       ∃ s', renew s now sub_id approval_id amount max_retries cooldown_ledgers cycle_id succeed =
         .error (.globalCapExceeded, s')) := by
  have hcons := consume_approval_succeeds s now sub_id approval_id amount a ha hu hex ham
  refine ⟨?_, ?_, ?_, ?_, ?_, ?_⟩
  · intro hcap0 s' hbad
    have := (renew_cap_error_conditions s now sub_id approval_id amount max_retries
      cooldown_ledgers cycle_id succeed data _ s' hd hbad).1 rfl
    omega
  · intro heq s' hbad
    have := (renew_cap_error_conditions s now sub_id approval_id amount max_retries
      cooldown_ledgers cycle_id succeed data _ s' hd hbad).1 rfl
    omega
  · intro hcappos heq
    refine ⟨{ s with approvals := setMap s.approvals (sub_id, approval_id) ({ a with used := true }) }, ?_⟩
    simp only [renew, hp, hd, hcons]
    rw [if_neg (by simp), if_neg hf, if_neg hcy, if_neg hcd,
        if_pos (⟨hcappos, by omega⟩ :
          data.spending_cap > 0 ∧ amount > data.spending_cap)]
  · intro hg0 s' hbad
    have := (renew_cap_error_conditions s now sub_id approval_id amount max_retries
      cooldown_ledgers cycle_id succeed data _ s' hd hbad).2 rfl
    omega
  · intro hnsub hgpos heq
    exact renew_ok_of_guards s now sub_id approval_id amount max_retries
      cooldown_ledgers cycle_id succeed data _ hp hd hf hcy hcd hcons hnsub (by omega)
  · intro hnsub hgpos heq
    refine ⟨{ s with approvals := setMap s.approvals (sub_id, approval_id) ({ a with used := true }) }, ?_⟩
    simp only [renew, hp, hd, hcons]
    rw [if_neg (by simp), if_neg hf, if_neg hcy, if_neg hcd, if_neg hnsub]
    rw [if_pos (⟨by simpa using hgpos, by simpa using (by omega :
      (s.userSpent data.owner).getD 0 + amount > (s.userCap data.owner).getD 0)⟩ :
      _ ∧ _)]

/-- Witness for C7: against `capState` (per-subscription cap 20, approval
ceiling 100), a renewal of amount 21 = cap + 1 aborts with the
subscription-cap error. -/
theorem renew_cap_boundaries_witness :
    (21 : Int) = 20 + 1 ∧
    ∃ s', renew capState 10 1 1 21 3 5 7 true =
      .error (.subscriptionCapExceeded, s') :=
  ⟨by decide,
   (renew_cap_boundaries capState 10 1 1 21 3 5 7 true
      ({ sampleSub with spending_cap := 20 })
      ({ sub_id := 1, max_spend := 100, expires_at := 50, used := false })
      rfl rfl (by decide) (by decide) (by decide) rfl rfl (by decide)
      (by decide)).2.2.1 (by decide) (by decide)⟩

/-- A guard-passing `renew` (either outcome) consumed its approval: the
approvals map afterwards is the pre-state's with the call's approval marked
used, that approval having been present and unused. -/
lemma renew_ok_approval_consumed
    (s : ContractState) (now sub_id approval_id : Nat) (amount : Int)
    (max_retries cooldown_ledgers cycle_id : Nat) (succeed : Bool)
    (r : Bool) (s' : ContractState)
    (h : renew s now sub_id approval_id amount max_retries cooldown_ledgers cycle_id succeed =
          .ok (r, s')) :
    ∃ a, s.approvals (sub_id, approval_id) = some a ∧ a.used = false ∧
      s'.approvals = setMap s.approvals (sub_id, approval_id) ({ a with used := true }) := by
  unfold renew at h
  split at h
  · exact Except.noConfusion h
  split at h
  · exact Except.noConfusion h
  split at h
  · exact Except.noConfusion h
  split at h
  · exact Except.noConfusion h
  split at h
  · exact Except.noConfusion h
  rcases hca : consume_approval s now sub_id approval_id amount with reason | s1
  · rw [hca] at h; exact Except.noConfusion h
  rw [hca] at h
  simp only at h
  split at h
  · exact Except.noConfusion h
  split at h
  · exact Except.noConfusion h
  obtain ⟨-, -, -, -, -, -, a, haeq, haf, happ⟩ :=
    consume_approval_ok_spec s now sub_id approval_id amount s1 hca
  refine ⟨a, haeq, haf, ?_⟩
  split at h
  · -- success branch
    rw [Except.ok.injEq, Prod.mk.injEq] at h
    obtain ⟨-, hs⟩ := h
    subst hs
    split
    · exact happ
    · exact happ
  · -- failure branch
    rw [Except.ok.injEq, Prod.mk.injEq] at h
    obtain ⟨-, hs⟩ := h
    subst hs
    exact happ

/-- Whether the approval at key `k` exists and is marked used. -/
def approvalUsed (s : ContractState) (k : Nat × Nat) : Bool :=
  match s.approvals k with
  | some a => a.used
  | none => false

/-- One call of the contract's public, state-changing interface (the pure
reads `is_paused`, `get_sub`, `get_user_cap`, `get_user_spent` touch no
storage).  `opRenew` carries the ledger value its call reads. -/
inductive Op where
  | opInit (admin : Nat)
  | opSetPaused (paused : Bool)
  | opInitSub (owner merchant : Nat) (amount : Int) (frequency : Nat)
      (spending_cap : Int) (sub_id : Nat)
  | opSetUserCap (user : Nat) (cap : Int)
  | opCancelSub (sub_id : Nat)
  | opApproveRenewal (sub_id approval_id : Nat) (max_spend : Int) (expires_at : Nat)
  | opRenew (now sub_id approval_id : Nat) (amount : Int)
      (max_retries cooldown_ledgers cycle_id : Nat) (succeed : Bool)
  deriving DecidableEq, Repr

/-- The storage persisted by one public call: the updated storage on normal
return, and the storage at the abort point on panic (for `renew` that is the
carried abort state; the other operations abort before writing). -/
def exec (s : ContractState) (op : Op) : ContractState :=
  match op with
  | .opInit admin =>
      match init s admin with | .ok t => t | .error _ => s
  | .opSetPaused p =>
      match set_paused s p with | .ok t => t | .error _ => s
  | .opInitSub o m amt f cap sid => init_sub s o m amt f cap sid
  | .opSetUserCap u c =>
      match set_user_cap s u c with | .ok t => t | .error _ => s
  | .opCancelSub sid =>
      match cancel_sub s sid with | .ok t => t | .error _ => s
  | .opApproveRenewal sid aid ms ex =>
      match approve_renewal s sid aid ms ex with | .ok t => t | .error _ => s
  | .opRenew now sid aid amt mr cd cy sc =>
      match renew s now sid aid amt mr cd cy sc with
      | .ok (_, t) => t
      | .error (_, t) => t

/-- Does the operation overwrite the approval record at key `k`
(only `approve_renewal` on exactly that key does)? -/
def overwritesApproval (op : Op) (k : Nat × Nat) : Bool :=
  match op with
  | .opApproveRenewal sid aid _ _ => decide ((sid, aid) = k)
  | _ => false

/-- Any single public call other than an `approve_renewal` on key `k` keeps
a used approval at `k` used. -/
lemma exec_preserves_used
    (s : ContractState) (op : Op) (k : Nat × Nat)
    (hop : overwritesApproval op k = false)
    (h : approvalUsed s k = true) :
    approvalUsed (exec s op) k = true := by
  cases op with
  | opInit admin =>
    by_cases hA : s.admin.isSome
    · simpa [exec, init, hA] using h
    · simpa [exec, init, hA, approvalUsed] using h
  | opSetPaused p =>
    rcases hA : s.admin with - | adm
    · simpa [exec, set_paused, hA] using h
    · simpa [exec, set_paused, hA, approvalUsed] using h
  | opInitSub o m amt f cap sid =>
    simpa [exec, init_sub, approvalUsed] using h
  | opSetUserCap u c =>
    rcases hA : s.admin with - | adm
    · simpa [exec, set_user_cap, hA] using h
    · simpa [exec, set_user_cap, hA, approvalUsed] using h
  | opCancelSub sid =>
    rcases hS : s.subs sid with - | d
    · simpa [exec, cancel_sub, hS] using h
    · by_cases hC : d.state = SubscriptionState.Cancelled
      · simpa [exec, cancel_sub, hS, hC] using h
      · simpa [exec, cancel_sub, hS, hC, approvalUsed] using h
  | opApproveRenewal sid aid ms ex =>
    have hk : (sid, aid) ≠ k := by
      simpa [overwritesApproval] using hop
    rcases hS : s.subs sid with - | d
    · simpa [exec, approve_renewal, hS] using h
    · have : (exec s (.opApproveRenewal sid aid ms ex)).approvals k = s.approvals k := by
        simp only [exec, approve_renewal, hS]
        exact setMap_other _ _ _ _ (fun hkk => hk hkk.symm)
      simpa [approvalUsed, this] using h
  | opRenew now sid aid amt mr cd cy sc =>
    rcases hR : renew s now sid aid amt mr cd cy sc with ⟨e, t⟩ | ⟨r, t⟩
    · -- abort: state is either untouched or has the approval consumed
      have hfr := renew_error_cases s now sid aid amt mr cd cy sc e t hR
      have happ : t.approvals = s.approvals ∨
          ∃ a, s.approvals (sid, aid) = some a ∧
            t.approvals = setMap s.approvals (sid, aid) ({ a with used := true }) := by
        rcases hfr with ⟨-, hs⟩ | ⟨-, hs⟩ | ⟨d0, -, hcase⟩
        · subst hs; exact Or.inl rfl
        · subst hs; exact Or.inl rfl
        rcases hcase with ⟨-, -, hs⟩ | ⟨-, -, hs⟩ | ⟨-, -, -, hs⟩ | ⟨r0, -, hs⟩ | ⟨-, s1, hca, hs⟩
        · subst hs; exact Or.inl rfl
        · subst hs; exact Or.inl rfl
        · subst hs; exact Or.inl rfl
        · subst hs; exact Or.inl rfl
        · subst hs
          obtain ⟨-, -, -, -, -, -, a, haeq, -, happ⟩ :=
            consume_approval_ok_spec s now sid aid amt t hca
          exact Or.inr ⟨a, haeq, happ⟩
      have hex : exec s (.opRenew now sid aid amt mr cd cy sc) = t := by
        simp [exec, hR]
      rw [hex]
      rcases happ with happ | ⟨a, haeq, happ⟩
      · simpa [approvalUsed, happ] using h
      · by_cases hk : k = (sid, aid)
        · subst hk
          simp [approvalUsed, happ, setMap_same]
        · rw [approvalUsed, happ, setMap_other _ _ _ _ hk]
          exact h
    · have hex : exec s (.opRenew now sid aid amt mr cd cy sc) = t := by
        simp [exec, hR]
      obtain ⟨a, haeq, -, happ⟩ :=
        renew_ok_approval_consumed s now sid aid amt mr cd cy sc r t hR
      rw [hex]
      by_cases hk : k = (sid, aid)
      · subst hk
        simp [approvalUsed, happ, setMap_same]
      · rw [approvalUsed, happ, setMap_other _ _ _ _ hk]
        exact h

/-- The state after the scenario-B renewal on `sampleState`, whose approval
(1,1) is marked used. -/
def C8midState : ContractState :=
  ((renew sampleState 10 1 1 50 3 5 7 true).toOption.getD (false, sampleState)).2

/-- The state after re-approving key (1,1) on `C8midState`. -/
def C8resetState : ContractState :=
  (approve_renewal C8midState 1 1 100 60).toOption.getD C8midState

/-- Counterexample to C8 as stated: the public interface CAN revert a used
approval.  After a renewal consumes approval (1,1), the public call
`approve_renewal` on the same key overwrites the record with a fresh unused
one, flipping `used` from true back to false. -/
theorem approval_used_reset_counterexample :
    approvalUsed C8midState (1, 1) = true ∧
    exec C8midState (Op.opApproveRenewal 1 1 100 60) = C8resetState ∧
    approvalUsed C8resetState (1, 1) = false :=
  ⟨rfl, rfl, rfl⟩

/-- C8 (amended): an approval's `used` flag, once true, stays true under any
sequence of public-interface operations that contains no `approve_renewal`
call on that approval's key; only such a re-approval (which overwrites the
record wholesale) can reset it — in particular `renew`/`consume_approval`
never do. -/
theorem approval_used_monotone_without_reapproval
    (ops : List Op) (s : ContractState) (k : Nat × Nat)
    (hops : ∀ op ∈ ops, overwritesApproval op k = false)
    (h : approvalUsed s k = true) :
    approvalUsed (ops.foldl exec s) k = true := by
  induction ops generalizing s with
  | nil => exact h
  | cons op rest ih =>
    simp only [List.foldl_cons]
    exact ih _ (fun o ho => hops o (List.mem_cons_of_mem _ ho))
      (exec_preserves_used s op k (hops op (List.mem_cons_self _ _)) h)

/-- Witness for the amended C8: starting from `C8midState` (approval (1,1)
used), a five-call sequence — pause, cancel, cap update, a renewal on a
different approval, and a re-approval of a *different* key — leaves the flag
true. -/
theorem approval_used_monotone_witness :
    (∀ op ∈ [Op.opSetPaused true, Op.opSetPaused false, Op.opCancelSub 1,
             Op.opSetUserCap 7 100, Op.opRenew 11 1 2 50 3 5 8 true,
             Op.opApproveRenewal 2 1 100 60],
       overwritesApproval op (1, 1) = false) ∧
    approvalUsed C8midState (1, 1) = true ∧
    approvalUsed
      (List.foldl exec C8midState
        [Op.opSetPaused true, Op.opSetPaused false, Op.opCancelSub 1,
         Op.opSetUserCap 7 100, Op.opRenew 11 1 2 50 3 5 8 true,
         Op.opApproveRenewal 2 1 100 60]) (1, 1) = true :=
  ⟨by decide, rfl,
   approval_used_monotone_without_reapproval
     [Op.opSetPaused true, Op.opSetPaused false, Op.opCancelSub 1,
      Op.opSetUserCap 7 100, Op.opRenew 11 1 2 50 3 5 8 true,
      Op.opApproveRenewal 2 1 100 60]
     C8midState (1, 1) (by decide) rfl⟩

/-- State for the C10 counterexample: global cap 5 for owner 7 with
cumulative spent already 20 (a cap lowered below the accrued spend). -/
def C10state : ContractState :=
  { sampleState with userCap := setMap sampleState.userCap 7 5,
                     userSpent := setMap sampleState.userSpent 7 20 }

/-- The storage carried by the abort of the C10 counterexample call. -/
def C10errState : ContractState :=
  match renew C10state 10 1 1 (-1) 3 5 7 true with
  | .error (_, t) => t
  | .ok (_, t) => t

/-- Counterexample to C10 as stated: with strictly negative amount -1 and
non-negative `max_spend` 100, per-subscription cap 0, global cap 5 and
cumulative spent 20, the global cap check does NOT pass — the call aborts
with the global-cap error, because 20 + (-1) > 5. -/
theorem renew_negative_amount_counterexample :
    ((-1 : Int) < 0 ∧ (0 : Int) ≤ 100 ∧ (0 : Int) ≤ 0 ∧
     (C10state.userCap 7).getD 0 = 5 ∧ (0 : Int) ≤ 5 ∧
     (C10state.userSpent 7).getD 0 = 20 ∧ (0 : Int) ≤ 20) ∧
    renew C10state 10 1 1 (-1) 3 5 7 true =
      .error (.globalCapExceeded, C10errState) :=
  ⟨by decide, rfl⟩

/-- C10 (amended): `renew` imposes no lower bound on `amount` — for strictly
negative amounts, with non-negative approval ceiling and per-subscription
cap, and cumulative spent NOT ABOVE the global cap, the approval amount
check and both cap checks all pass; a successful renewal under a positive
global cap then adds the negative amount to the owner's cumulative spent,
strictly decreasing it. -/
theorem renew_negative_amount_amended
    (s : ContractState) (now sub_id approval_id : Nat) (amount : Int)
    (max_retries cooldown_ledgers cycle_id : Nat)
    (data : SubscriptionData) (a : RenewalApproval)
    (hp : is_paused s = false)
    (hd : s.subs sub_id = some data)
    (hf : data.state ≠ SubscriptionState.Failed)
    (hcy : s.cycles sub_id ≠ some cycle_id)
    (hcd : ¬(data.failure_count > 0 ∧ now < data.last_attempt_ledger + cooldown_ledgers))
    (ha : s.approvals (sub_id, approval_id) = some a)
    (hu : a.used = false)
    (hex : now ≤ a.expires_at)
    (hneg : amount < 0)
    (hms : 0 ≤ a.max_spend)
    (hcap : 0 ≤ data.spending_cap)
    (hsc : (s.userSpent data.owner).getD 0 ≤ (s.userCap data.owner).getD 0) :
    ¬(amount > a.max_spend) ∧
    ¬(data.spending_cap > 0 ∧ amount > data.spending_cap) ∧
    ¬((s.userCap data.owner).getD 0 > 0 ∧
      (s.userSpent data.owner).getD 0 + amount > (s.userCap data.owner).getD 0) ∧
    ∃ s', renew s now sub_id approval_id amount max_retries cooldown_ledgers cycle_id true =
        .ok (true, s') ∧
      ((s.userCap data.owner).getD 0 > 0 →
         (s'.userSpent data.owner).getD 0 = (s.userSpent data.owner).getD 0 + amount ∧
         (s'.userSpent data.owner).getD 0 < (s.userSpent data.owner).getD 0) := by
  have ham : amount ≤ a.max_spend := by omega
  have hcons := consume_approval_succeeds s now sub_id approval_id amount a ha hu hex ham
  refine ⟨by omega, by omega, by omega, ?_⟩
  obtain ⟨r, s', hok⟩ := renew_ok_of_guards s now sub_id approval_id amount max_retries
    cooldown_ledgers cycle_id true data _ hp hd hf hcy hcd hcons (by omega) (by omega)
  obtain ⟨hr, -, -, hpos, -⟩ := renew_ok_true_spec s now sub_id approval_id amount
    max_retries cooldown_ledgers cycle_id data r s' hd hok
  subst hr
  refine ⟨s', hok, ?_⟩
  intro hg
  have := hpos hg
  exact ⟨this, by omega⟩

/-- State for the amended-C10 witness: global cap 100 for owner 7, spent 20. -/
def C10okState : ContractState :=
  { sampleState with userCap := setMap sampleState.userCap 7 100,
                     userSpent := setMap sampleState.userSpent 7 20 }

/-- Witness for the amended C10: renewing amount -1 under global cap 100
with spent 20 passes every check and decreases spent. -/
theorem renew_negative_amount_amended_witness :
    ¬((-1 : Int) > (100 : Int)) ∧
    ¬(sampleSub.spending_cap > 0 ∧ (-1 : Int) > sampleSub.spending_cap) ∧
    ¬((C10okState.userCap sampleSub.owner).getD 0 > 0 ∧
      (C10okState.userSpent sampleSub.owner).getD 0 + (-1) >
        (C10okState.userCap sampleSub.owner).getD 0) ∧
    ∃ s', renew C10okState 10 1 1 (-1) 3 5 7 true = .ok (true, s') ∧
      ((C10okState.userCap sampleSub.owner).getD 0 > 0 →
         (s'.userSpent sampleSub.owner).getD 0 =
           (C10okState.userSpent sampleSub.owner).getD 0 + (-1) ∧
         (s'.userSpent sampleSub.owner).getD 0 <
           (C10okState.userSpent sampleSub.owner).getD 0) :=
  renew_negative_amount_amended C10okState 10 1 1 (-1) 3 5 7 sampleSub
    ({ sub_id := 1, max_spend := 100, expires_at := 50, used := false })
    rfl rfl (by decide) (by decide) (by decide) rfl rfl (by decide)
    (by decide) (by decide) (by decide) (by decide)
